import Mathlib

/-!
Shallow embedding of the payment reconciliation state machine of
`backend/app/services/payment_state_service.py`, together with the
supporting schema facts of `backend/alembic/versions/004_create_payment_sessions.py`.

Conventions of the embedding:
* Python values flowing through gateway payloads are modelled by `PyVal`
  (`None`, strings, integers, datetimes, dicts); Python truthiness is `pyTruthy`.
* `datetime` instants are modelled as integer seconds on a proleptic Gregorian
  axis (days-from-civil × 86400 + seconds-of-day); a zone-aware value is a pair
  of naive fields plus an offset, and normalisation to naive UTC subtracts the
  offset, exactly as `astimezone(timezone.utc).replace(tzinfo=None)` does.
* `Decimal` values are modelled as exact rationals (`ℚ`); the `Decimal(str(v))`
  constructor is modelled on the fragment of its grammar the service feeds it:
  optionally signed finite decimal literals (special values such as `NaN` and
  exponent forms are outside the modelled fragment, no claim exercises them).
* The database table `payment_sessions` is a list of rows plus a surrogate-key
  counter; `datetime.utcnow()` is passed in explicitly as `now`.
-/

/-- The five canonical local statuses (`PaymentSessionStatus`). -/
inductive SessionStatus where
  | pending
  | approved
  | completed
  | failed
  | expired
deriving DecidableEq, Repr

/-- The four access states (`PaymentAccessState`). -/
inductive AccessState where
  | ready_for_platform
  | awaiting_payment
  | needs_payment
  | payment_failed
deriving DecidableEq, Repr

/-- Python values as they appear in gateway payloads. `pydt` carries a naive
instant in seconds; aware datetimes never reach the service as objects. -/
inductive PyVal where
  | pynone
  | pystr (s : String)
  | pyint (n : Int)
  | pydt (t : Int)
  | pydict (entries : List (String × PyVal))

/-- Python truthiness: `None`, `""`, `0` and the empty dict are falsy. -/
def pyTruthy : PyVal → Bool
  | .pynone => false
  | .pystr s => s != ""
  | .pyint n => n != 0
  | .pydt _ => true
  | .pydict entries => !entries.isEmpty

/-- `v is None` (identity with the `None` singleton). -/
def isPyNone : PyVal → Bool
  | .pynone => true
  | _ => false

/-- `dict.get(key)`: `None` when the key is absent (or the value is not a dict). -/
def pyGet (v : PyVal) (key : String) : PyVal :=
  match v with
  | .pydict entries =>
    match entries.find? (fun e => e.fst == key) with
    | some e => e.snd
    | none => .pynone
  | _ => .pynone

/-- Python `a or b`: the first operand when truthy, else the second. -/
def pyOr (a b : PyVal) : PyVal := if pyTruthy a then a else b

/-- Python `str(v)` on the fragment the service stringifies (payment ids are
strings or integers; other shapes yield a non-numeric textual form). -/
def pyStr : PyVal → String
  | .pynone => "None"
  | .pystr s => s
  | .pyint n => toString n
  | .pydt _ => "datetime"
  | .pydict _ => "dict"

/-- Python `int(v)` on the fragment the service converts (integers and digit
strings; `int()` raising on other shapes is outside the modelled fragment,
no claim exercises it). -/
def pyToIntD (v : PyVal) : Int :=
  match v with
  | .pyint n => n
  | .pystr s =>
    match s.data with
    | '-' :: ds => if ds ≠ [] ∧ ds.all Char.isDigit then
        -(ds.foldl (fun a c => a * 10 + (c.toNat - 48)) 0 : Int) else 0
    | ds => if ds ≠ [] ∧ ds.all Char.isDigit then
        (ds.foldl (fun a c => a * 10 + (c.toNat - 48)) 0 : Int) else 0
  | _ => 0

/-- Optional-string view of a payload field (statuses and details are strings
or `None` in the payloads the gateway hands over). -/
def pyToStrOpt : PyVal → Option String
  | .pystr s => some s
  | _ => none

/-! ### Calendar arithmetic (model of `datetime`) -/

def isLeap (y : Nat) : Bool := y % 4 == 0 && (y % 100 != 0 || y % 400 == 0)

def daysInMonth (y m : Nat) : Nat :=
  if m = 2 then (if isLeap y then 29 else 28)
  else if m = 4 ∨ m = 6 ∨ m = 9 ∨ m = 11 then 30
  else 31

/-- Days since 1970-01-01 of a civil date (Gregorian, truncated division). -/
def daysFromCivil (y : Int) (m d : Nat) : Int :=
  let yAdj : Int := if m ≤ 2 then y - 1 else y
  let era : Int := (if yAdj ≥ 0 then yAdj else yAdj - 399) / 400
  let yoe : Int := yAdj - era * 400
  let mp : Int := if m > 2 then (m : Int) - 3 else (m : Int) + 9
  let doy : Int := (153 * mp + 2) / 5 + (d : Int) - 1
  let doe : Int := yoe * 365 + yoe / 4 - yoe / 100 + doy
  era * 146097 + doe - 719468

/-- A naive instant, in seconds since the epoch. -/
def mkInstant (y m d h mi s : Nat) : Int :=
  daysFromCivil (y : Int) m d * 86400 + ((h * 3600 + mi * 60 + s : Nat) : Int)

/-! ### ISO-8601 parsing (model of `datetime.fromisoformat`) -/

/-- Read exactly `k` decimal digits, most significant first. -/
def readFixed : Nat → Nat → List Char → Option (Nat × List Char)
  | 0, acc, cs => some (acc, cs)
  | k + 1, acc, c :: cs =>
    if c.isDigit then readFixed k (acc * 10 + (c.toNat - 48)) cs else none
  | _ + 1, _, [] => none

def expectChar (c : Char) : List Char → Option (List Char)
  | d :: cs => if d = c then some cs else none
  | [] => none

/-- Fields produced by `fromisoformat`: a civil timestamp plus an optional
UTC offset in minutes (`none` = naive). -/
structure ParsedDT where
  year : Nat
  month : Nat
  day : Nat
  hour : Nat
  minute : Nat
  second : Nat
  offsetMinutes : Option Int
deriving DecidableEq, Repr

/-- Parse `HH:MM[:SS[.ffffff]]`; fractional seconds are validated and dropped
(the service never reads sub-second precision). -/
def parseTimePart (cs : List Char) : Option (Nat × Nat × Nat × List Char) := do
  let (h, cs) ← readFixed 2 0 cs
  let cs ← expectChar ':' cs
  let (mi, cs) ← readFixed 2 0 cs
  if h ≥ 24 ∨ mi ≥ 60 then none else
  match cs with
  | ':' :: cs => do
    let (s, cs) ← readFixed 2 0 cs
    if s ≥ 60 then none else
    match cs with
    | '.' :: cs =>
      let (frac, cs) := cs.span Char.isDigit
      if frac.length = 0 ∨ frac.length > 6 then none else some (h, mi, s, cs)
    | _ => some (h, mi, s, cs)
  | _ => some (h, mi, 0, cs)

/-- Parse a trailing `±HH:MM` offset (or nothing); must consume the input. -/
def parseOffsetPart (cs : List Char) : Option (Option Int) :=
  match cs with
  | [] => some none
  | sign :: rest =>
    if sign = '+' ∨ sign = '-' then do
      let (oh, rest) ← readFixed 2 0 rest
      let rest ← expectChar ':' rest
      let (om, rest) ← readFixed 2 0 rest
      if oh ≥ 24 ∨ om ≥ 60 ∨ rest ≠ [] then none
      else
        let total : Int := (oh * 60 + om : Nat)
        some (some (if sign = '-' then -total else total))
    else none

/-- Model of `datetime.fromisoformat` on the grammar
`YYYY-MM-DD[(T| )HH:MM[:SS[.ffffff]]][±HH:MM]`. -/
def fromisoformat (s : String) : Option ParsedDT := do
  let cs := s.data
  let (y, cs) ← readFixed 4 0 cs
  let cs ← expectChar '-' cs
  let (m, cs) ← readFixed 2 0 cs
  let cs ← expectChar '-' cs
  let (d, cs) ← readFixed 2 0 cs
  if m < 1 ∨ m > 12 ∨ d < 1 ∨ d > daysInMonth y m then none else
  match cs with
  | [] => some ⟨y, m, d, 0, 0, 0, none⟩
  | sep :: cs =>
    if sep = 'T' ∨ sep = 't' ∨ sep = ' ' then do
      let (h, mi, sec, cs) ← parseTimePart cs
      let off ← parseOffsetPart cs
      some ⟨y, m, d, h, mi, sec, off⟩
    else none

/-- Python `str.replace("Z", "+00:00")`, every occurrence. -/
def replaceZ : List Char → List Char
  | [] => []
  | c :: cs =>
    if c = 'Z' then '+' :: '0' :: '0' :: ':' :: '0' :: '0' :: replaceZ cs
    else c :: replaceZ cs

/-- Python `str.strip()`. -/
def stripChars (cs : List Char) : List Char :=
  ((cs.dropWhile Char.isWhitespace).reverse.dropWhile Char.isWhitespace).reverse

/-- `PaymentStateService._parse_datetime`: falsy values and non-str/non-datetime
values yield `None`; strings are stripped, `Z` is rewritten to `+00:00`, the
result is parsed as ISO-8601 and, when zone-aware, converted to a naive UTC
instant by subtracting the offset. Malformed strings yield `None` (the caught
`ValueError` branch). -/
def parse_datetime (value : PyVal) : Option Int :=
  if ¬ pyTruthy value then none
  else
    match value with
    | .pydt t => some t
    | .pystr s =>
      let candidate := stripChars s.data
      if candidate = [] then none
      else
        let candidate := replaceZ candidate
        match fromisoformat (String.mk candidate) with
        | none => none
        | some p =>
          let naive := mkInstant p.year p.month p.day p.hour p.minute p.second
          match p.offsetMinutes with
          | some off => some (naive - off * 60)
          | none => some naive
    | _ => none

/-! ### Decimal parsing (model of `Decimal(str(value))`) -/

def digitsToNat (ds : List Char) : Nat :=
  ds.foldl (fun a c => a * 10 + (c.toNat - 48)) 0

/-- Model of the `Decimal` constructor on optionally signed finite decimal
literals (with optional leading/trailing whitespace): the scaled mantissa and
the number of fraction digits, mirroring `Decimal`'s coefficient/exponent
representation; anything else is the `InvalidOperation` branch, i.e. `none`. -/
def parseDecParts (cs0 : List Char) : Option (Int × Nat) :=
  let cs := stripChars cs0
  let (sign, cs) : Int × List Char :=
    match cs with
    | '-' :: r => (-1, r)
    | '+' :: r => (1, r)
    | _ => (1, cs)
  let (ip, cs) := cs.span Char.isDigit
  match cs with
  | [] => if ip = [] then none else some (sign * digitsToNat ip, 0)
  | '.' :: r =>
    let (fp, rest) := r.span Char.isDigit
    if rest ≠ [] then none
    else if ip = [] ∧ fp = [] then none
    else some (sign * (digitsToNat ip * 10 ^ fp.length + digitsToNat fp), fp.length)
  | _ => none

/-- The exact rational value of a parsed decimal literal. -/
def parseDecCore (cs : List Char) : Option ℚ :=
  (parseDecParts cs).map (fun p => (p.fst : ℚ) / ((10 ^ p.snd : Nat) : ℚ))

/-- `PaymentStateService._to_decimal`: `None` and `""` yield `None`; otherwise
`Decimal(str(value))`, with the `InvalidOperation`/`TypeError` branch yielding
`None`. -/
def to_decimal (value : PyVal) : Option ℚ :=
  match value with
  | .pynone => none
  | .pystr "" => none
  | v => parseDecCore (pyStr v).data

/-! ### Status mapping (model of `_map_mp_status`) -/

/-- Python `.lower()` of a status token, at the character level. -/
def pyLower (s : String) : List Char := s.data.map Char.toLower

/-- `PaymentStateService._map_mp_status`: falsy input is `pending`; otherwise
the lowercased token is looked up in the closed table, defaulting to
`pending`. -/
def map_mp_status (mp_status : Option String) : SessionStatus :=
  match mp_status with
  | none => .pending
  | some s =>
    if s = "" then .pending
    else
      let normalized := pyLower s
      if normalized = "pending".data ∨ normalized = "in_process".data then .pending
      else if normalized = "approved".data ∨ normalized = "authorized".data then .approved
      else if normalized = "cancelled".data ∨ normalized = "rejected".data ∨
        normalized = "refunded".data ∨ normalized = "charged_back".data then .failed
      else if normalized = "expired".data then .expired
      else .pending

/-! ### The `payment_sessions` store -/

/-- A row of `payment_sessions` (migration 004 / the `PaymentSession` model):
`payment_id` carries the unique key `uq_payment_sessions_payment_id`. -/
structure PaymentSession where
  id : Nat
  user_id : Int
  payment_id : String
  preference_id : Option String
  status : SessionStatus
  mercadopago_status : Option String
  detail : Option String
  credits_amount : Option Int
  amount : Option ℚ
  expires_at : Option Int
  created_at : Int
  updated_at : Int
  last_sync_at : Option Int
deriving DecidableEq, Repr

/-- The table plus its surrogate-key sequence. -/
structure Store where
  sessions : List PaymentSession
  nextId : Nat
deriving DecidableEq, Repr

/-- A row of `credit_transactions`, restricted to the columns
`_has_successful_payment` reads. -/
structure CreditTransaction where
  user_id : Int
  transaction_type : String
  reference_id : Option String
deriving DecidableEq, Repr

/-- `select(PaymentSession).where(payment_id == pid)` under the unique
constraint: the first (only) matching row. -/
def findSession (store : Store) (pid : String) : Option PaymentSession :=
  store.sessions.find? (fun s => s.payment_id == pid)

/-- Write back the found row in place. -/
def replaceFirst : List PaymentSession → String → PaymentSession → List PaymentSession
  | [], _, _ => []
  | s :: rest, pid, inst =>
    if s.payment_id == pid then inst :: rest else s :: replaceFirst rest pid inst

/-- Modelled from the spec: the ORM model (`models_schemas/models.py`) is not in
the sources; §3 specifies `updatedAt` is "set at creation / on any mutation",
so every row write stamps `updated_at := now`. -/
def touchUpdatedAt (s : PaymentSession) (now : Int) : PaymentSession :=
  { s with updated_at := now }

/-- Truthiness of an optional string argument (`if preference_id:`). -/
def optStrTruthy : Option String → Bool
  | some s => s != ""
  | none => false

/-- The merge-update branch of `_upsert_session` (lines 118-139): the returned
flag records whether the regression warning was logged. -/
def mergeSession (inst : PaymentSession) (now : Int) (user_id : Int)
    (preference_id : Option String) (status : SessionStatus)
    (mp_status : Option String) (detail : Option String)
    (credits_amount : Option Int) (amount : Option ℚ)
    (expires_at : Option Int) : PaymentSession × Bool :=
  let warned := inst.status == .completed &&
    (status == .failed || status == .expired)
  (touchUpdatedAt
    { inst with
      user_id := user_id
      preference_id :=
        if optStrTruthy preference_id then preference_id else inst.preference_id
      mercadopago_status := mp_status
      detail := detail
      credits_amount :=
        match credits_amount with
        | some c => some c
        | none => inst.credits_amount
      amount :=
        match amount with
        | some a => some a
        | none => inst.amount
      expires_at :=
        match expires_at with
        | some e => some e
        | none => inst.expires_at
      status := if inst.status ≠ .completed then status else inst.status
      last_sync_at := some now } now, warned)

/-- `PaymentStateService._upsert_session`: find-or-create keyed on
`payment_id`; an existing row is merge-updated, a missing row is inserted with
the supplied fields and `last_sync_at = now`. Returns the committed store, the
written row, and the regression-warning flag. -/
def upsert_session (store : Store) (now : Int) (user_id : Int)
    (payment_id : String) (preference_id : Option String)
    (status : SessionStatus) (mp_status : Option String)
    (detail : Option String) (credits_amount : Option Int)
    (amount : Option ℚ) (expires_at : Option Int) :
    Store × PaymentSession × Bool :=
  match findSession store payment_id with
  | some inst =>
    let merged := mergeSession inst now user_id preference_id status mp_status
      detail credits_amount amount expires_at
    ({ store with sessions := replaceFirst store.sessions payment_id merged.fst },
      merged.fst, merged.snd)
  | none =>
    let inst : PaymentSession :=
      { id := store.nextId
        user_id := user_id
        payment_id := payment_id
        preference_id := preference_id
        status := status
        mercadopago_status := mp_status
        detail := detail
        credits_amount := credits_amount
        amount := amount
        expires_at := expires_at
        created_at := now
        updated_at := now
        last_sync_at := some now }
    ({ sessions := store.sessions ++ [inst], nextId := store.nextId + 1 },
      inst, false)

/-- `PaymentStateService.register_payment_attempt`: a payload without a truthy
`id` is a logged precondition failure returning `None` with no write; otherwise
the payload fields are derived and handed to the upsert. -/
def register_payment_attempt (store : Store) (now : Int) (user_id : Int)
    (payment : PyVal) (preference_id : Option String) :
    Store × Option PaymentSession :=
  let payment_id := pyGet payment "id"
  if ¬ pyTruthy payment_id then (store, none)
  else
    let metadata := pyOr (pyGet payment "metadata") (.pydict [])
    let credits_amount := pyGet metadata "credits_amount"
    let amount := pyGet payment "transaction_amount"
    let expires_at := parse_datetime (pyGet payment "date_of_expiration")
    let detail := pyToStrOpt (pyGet payment "status_detail")
    let mp_status := pyToStrOpt (pyGet payment "status")
    let status := map_mp_status mp_status
    let r := upsert_session store now user_id (pyStr payment_id) preference_id
      status mp_status detail
      (if isPyNone credits_amount then none else some (pyToIntD credits_amount))
      (to_decimal amount) expires_at
    (r.fst, some r.snd.fst)

/-- `PaymentStateService.sync_with_payment_info`: falsy `payment_id` aborts;
the owning user is resolved from the explicit argument or
`metadata["user_id"]`, and an unresolvable user is a logged precondition
failure returning `None` with no write. -/
def sync_with_payment_info (store : Store) (now : Int) (payment_id : String)
    (user_id : Option Int) (payment_info : PyVal) :
    Store × Option PaymentSession :=
  if payment_id = "" then (store, none)
  else
    let metadata := pyOr (pyGet payment_info "metadata") (.pydict [])
    let preference_id := pyToStrOpt
      (pyOr (pyGet metadata "preference_id") (pyGet payment_info "preference_id"))
    let mp_status := pyToStrOpt (pyGet payment_info "status")
    let detail := pyToStrOpt (pyGet payment_info "status_detail")
    let credits_amount := pyGet metadata "credits_amount"
    let amount := pyGet payment_info "transaction_amount"
    let expires_at := parse_datetime
      (pyOr (pyGet payment_info "date_of_expiration")
        (pyGet payment_info "expiration_date"))
    let resolved_user_id := pyOr
      (match user_id with | some n => .pyint n | none => .pynone)
      (pyGet metadata "user_id")
    if ¬ pyTruthy resolved_user_id then (store, none)
    else
      let status := map_mp_status mp_status
      let r := upsert_session store now (pyToIntD resolved_user_id)
        payment_id preference_id status mp_status detail
        (if isPyNone credits_amount then none else some (pyToIntD credits_amount))
        (to_decimal amount) expires_at
      (r.fst, some r.snd.fst)

/-- `PaymentStateService.mark_completed`: a missing session is a silent no-op;
otherwise the row is forced to `completed`/`approved`, `detail` is overwritten
only when truthy, and `last_sync_at` is stamped. -/
def mark_completed (store : Store) (now : Int) (payment_id : String)
    (detail : Option String) : Store :=
  match findSession store payment_id with
  | none => store
  | some inst =>
    let inst' := touchUpdatedAt
      { inst with
        status := .completed
        mercadopago_status := some "approved"
        detail := if optStrTruthy detail then detail else inst.detail
        last_sync_at := some now } now
    { store with sessions := replaceFirst store.sessions payment_id inst' }

/-- One comparison step of the latest-created scan. -/
def laterOf (acc : Option PaymentSession) (s : PaymentSession) :
    Option PaymentSession :=
  match acc with
  | none => some s
  | some b => if s.created_at > b.created_at then some s else some b

/-- The latest-created session of a user (`order_by(desc(created_at)).limit(1)`);
the first row of maximal `created_at` is kept. -/
def pickLatest (l : List PaymentSession) : Option PaymentSession :=
  l.foldl laterOf none

/-- `PaymentStateService.fetch_latest_session` (the snapshot projection is the
row itself in this embedding). -/
def fetch_latest_session (store : Store) (uid : Int) : Option PaymentSession :=
  pickLatest (store.sessions.filter (fun s => s.user_id == uid))

/-- SQL `LIKE 'mp_%'`: `_` matches exactly one character and `%` any suffix,
so the reference matches when it is at least three characters and starts with
`mp`. -/
def refLikeMp (r : String) : Bool :=
  r.startsWith "mp" && r.length ≥ 3

/-- `PaymentStateService._has_successful_payment`: a session of the user with
status `completed` or `approved`, or else a `purchase` credit transaction of
the user whose `reference_id` is `NULL` or `LIKE 'mp_%'`. -/
def has_successful_payment (store : Store)
    (ledger : List CreditTransaction) (uid : Int) : Bool :=
  store.sessions.any (fun s =>
    s.user_id == uid && (s.status == .completed || s.status == .approved))
  || ledger.any (fun t =>
    t.user_id == uid && t.transaction_type == "purchase" &&
      (t.reference_id.isNone ||
        (match t.reference_id with | some r => refLikeMp r | none => false)))

/-- Modelled from the spec: `CreditService.user_has_paid_access` is not in the
sources (only its call site is); spec §4.4 describes the whole non-session
history fallback as `hasSuccessfulPaymentHistory`, whose ledger clause (§4.2)
is a `purchase` entry with an absent or gateway-convention reference, so the
credit-service check is modelled as exactly that ledger clause. -/
def user_has_paid_access (ledger : List CreditTransaction) (uid : Int) : Bool :=
  ledger.any (fun t =>
    t.user_id == uid && t.transaction_type == "purchase" &&
      (t.reference_id.isNone ||
        (match t.reference_id with | some r => refLikeMp r | none => false)))

/-- The record returned by `get_user_state` (the snapshot payload is the row). -/
structure UserStateResult where
  state : AccessState
  can_access : Bool
  credits_balance : Int
  payment : Option PaymentSession
deriving DecidableEq, Repr

/-- `PaymentStateService.get_user_state`: the credit balance is the external
collaborator `_get_valid_credits_balance`, passed in as `balance`. The history
fallback runs only when the balance is non-positive; access is balance or
history; the state is derived from access and the latest session. -/
def get_user_state (store : Store) (ledger : List CreditTransaction)
    (uid : Int) (balance : Int) : UserStateResult :=
  let latest := fetch_latest_session store uid
  let has_paid_history :=
    if balance ≤ 0 then
      let h := user_has_paid_access ledger uid
      if h then h else has_successful_payment store ledger uid
    else false
  let can_access := balance > 0 || has_paid_history
  let state :=
    if can_access then AccessState.ready_for_platform
    else
      match latest with
      | some s =>
        if s.status == .pending || s.status == .approved then
          AccessState.awaiting_payment
        else if s.status == .failed || s.status == .expired then
          AccessState.payment_failed
        else AccessState.needs_payment
      | none => AccessState.needs_payment
  { state := state
    can_access := can_access
    credits_balance := balance
    payment := latest }

/-! ### Helper lemmas on the store -/

theorem replaceFirst_length (l : List PaymentSession) (pid : String)
    (inst : PaymentSession) : (replaceFirst l pid inst).length = l.length := by
  induction l with
  | nil => rfl
  | cons s rest ih =>
    simp only [replaceFirst]
    split <;> simp [ih]

theorem replaceFirst_countP (l : List PaymentSession) (pid : String)
    (inst : PaymentSession) (h : inst.payment_id = pid) :
    (replaceFirst l pid inst).countP (fun s => s.payment_id == pid) =
      l.countP (fun s => s.payment_id == pid) := by
  induction l with
  | nil => rfl
  | cons s rest ih =>
    simp only [replaceFirst]
    split
    · next hs => simp [List.countP_cons, hs, h]
    · next hs => simp [List.countP_cons, hs, ih]

theorem replaceFirst_find? (l : List PaymentSession) (pid : String)
    (inst : PaymentSession) (h : inst.payment_id = pid)
    (hf : (l.find? (fun s => s.payment_id == pid)).isSome) :
    (replaceFirst l pid inst).find? (fun s => s.payment_id == pid) = some inst := by
  induction l with
  | nil => simp [List.find?] at hf
  | cons s rest ih =>
    simp only [replaceFirst]
    split
    · next hs =>
      exact List.find?_cons_of_pos _ (by simp [h])
    · next hs =>
      rw [List.find?_cons_of_neg _ (by simpa using hs)]
      rw [List.find?_cons_of_neg _ (by simpa using hs)] at hf
      exact ih hf

theorem find?_append_of_none {p : PaymentSession → Bool}
    (l : List PaymentSession) (inst : PaymentSession)
    (h : l.find? p = none) (hp : p inst = true) :
    ((l ++ [inst]).find? p) = some inst := by
  rw [List.find?_eq_none] at h
  induction l with
  | nil => simp [List.find?, hp]
  | cons s rest ih =>
    have hs : ¬ p s = true := h s (by simp)
    rw [List.cons_append, List.find?_cons_of_neg _ hs]
    exact ih (fun x hx => h x (by simp [hx]))

theorem foldl_laterOf_mem (l : List PaymentSession) :
    ∀ acc s, l.foldl laterOf acc = some s → s ∈ l ∨ acc = some s := by
  induction l with
  | nil => exact fun acc s h => Or.inr h
  | cons x xs ih =>
    intro acc s h
    rcases ih (laterOf acc x) s h with hm | he
    · exact Or.inl (List.mem_cons_of_mem _ hm)
    · cases acc with
      | none =>
        simp only [laterOf, Option.some.injEq] at he
        exact Or.inl (he ▸ List.mem_cons_self x xs)
      | some b =>
        simp only [laterOf] at he
        split at he
        · exact Or.inl (by simp [← Option.some.inj he])
        · exact Or.inr he

theorem pickLatest_mem (l : List PaymentSession) (s : PaymentSession)
    (h : pickLatest l = some s) : s ∈ l := by
  rcases foldl_laterOf_mem l none s h with hm | he
  · exact hm
  · simp at he

theorem fetch_latest_mem (store : Store) (uid : Int) (s : PaymentSession)
    (h : fetch_latest_session store uid = some s) :
    s ∈ store.sessions ∧ s.user_id = uid := by
  have hm := pickLatest_mem _ _ h
  rw [List.mem_filter] at hm
  exact ⟨hm.1, by simpa using hm.2⟩

/-! ### Claims about the pure functions -/

/-- C3: `_map_mp_status` is a total, pure function into the five-element
canonical status set; `None`/empty, `pending`, `in_process` and any
unrecognized token map (case-insensitively) to `pending`,
`approved`/`authorized` to `approved`,
`cancelled`/`rejected`/`refunded`/`charged_back` to `failed`, and `expired`
to `expired`. -/
theorem C3_mapper_total_table :
    (∀ v : Option String, map_mp_status v = .pending ∨ map_mp_status v = .approved ∨
      map_mp_status v = .completed ∨ map_mp_status v = .failed ∨
      map_mp_status v = .expired)
    ∧ map_mp_status none = .pending
    ∧ map_mp_status (some "") = .pending
    ∧ (∀ s : String, pyLower s = "pending".data ∨ pyLower s = "in_process".data →
        map_mp_status (some s) = .pending)
    ∧ (∀ s : String, pyLower s = "approved".data ∨ pyLower s = "authorized".data →
        map_mp_status (some s) = .approved)
    ∧ (∀ s : String, pyLower s = "cancelled".data ∨ pyLower s = "rejected".data ∨
        pyLower s = "refunded".data ∨ pyLower s = "charged_back".data →
        map_mp_status (some s) = .failed)
    ∧ (∀ s : String, pyLower s = "expired".data → map_mp_status (some s) = .expired)
    ∧ (∀ s : String,
        pyLower s ≠ "pending".data → pyLower s ≠ "in_process".data →
        pyLower s ≠ "approved".data → pyLower s ≠ "authorized".data →
        pyLower s ≠ "cancelled".data → pyLower s ≠ "rejected".data →
        pyLower s ≠ "refunded".data → pyLower s ≠ "charged_back".data →
        pyLower s ≠ "expired".data → map_mp_status (some s) = .pending) := by
  have hne : ∀ s : String, ∀ w : String, w.data ≠ [] → pyLower s = w.data → s ≠ "" := by
    intro s w hw h he
    subst he
    exact hw (by simpa [pyLower] using h.symm)
  refine ⟨?_, rfl, rfl, ?_, ?_, ?_, ?_, ?_⟩
  · intro v
    cases h : map_mp_status v <;> simp
  · intro s h
    have hs : s ≠ "" := by
      rcases h with h | h
      · exact hne s "pending" (by decide) h
      · exact hne s "in_process" (by decide) h
    rcases h with h | h <;> simp [map_mp_status, hs, h]
  · intro s h
    have hs : s ≠ "" := by
      rcases h with h | h
      · exact hne s "approved" (by decide) h
      · exact hne s "authorized" (by decide) h
    rcases h with h | h <;> simp [map_mp_status, hs, h]
  · intro s h
    have hs : s ≠ "" := by
      rcases h with h | h | h | h
      · exact hne s "cancelled" (by decide) h
      · exact hne s "rejected" (by decide) h
      · exact hne s "refunded" (by decide) h
      · exact hne s "charged_back" (by decide) h
    rcases h with h | h | h | h <;> simp [map_mp_status, hs, h]
  · intro s h
    have hs : s ≠ "" := hne s "expired" (by decide) h
    simp [map_mp_status, hs, h]
  · intro s h1 h2 h3 h4 h5 h6 h7 h8 h9
    by_cases hs : s = ""
    · simp [map_mp_status, hs]
    · simp [map_mp_status, hs, h1, h2, h3, h4, h5, h6, h7, h8, h9]

/-- C3 witness: the table at concrete tokens, including mixed case and an
unknown token, via the theorem. -/
theorem C3_mapper_total_table_witness :
    map_mp_status (some "In_Process") = .pending ∧
    map_mp_status (some "AUTHORIZED") = .approved ∧
    map_mp_status (some "Charged_Back") = .failed ∧
    map_mp_status (some "Expired") = .expired ∧
    map_mp_status (some "mystery_token") = .pending :=
  ⟨C3_mapper_total_table.2.2.2.1 "In_Process" (by decide),
   C3_mapper_total_table.2.2.2.2.1 "AUTHORIZED" (by decide),
   C3_mapper_total_table.2.2.2.2.2.1 "Charged_Back" (by decide),
   C3_mapper_total_table.2.2.2.2.2.2.1 "Expired" (by decide),
   C3_mapper_total_table.2.2.2.2.2.2.2 "mystery_token" (by decide) (by decide)
     (by decide) (by decide) (by decide) (by decide) (by decide) (by decide)
     (by decide)⟩

/-- C7: `_parse_datetime` turns ISO-8601 input with a `Z` suffix or zone
offset into a zone-naive UTC instant (the `Z` example lands on
2024-05-01 12:00:00 and a `-03:00` offset is folded into the instant), and
yields `None` on malformed input instead of raising; `_to_decimal` yields the
exact decimal value for numeric input and `None` — never zero — for `None`,
empty, or non-numeric input. -/
theorem C7_parsers_degrade_to_unknown :
    parse_datetime (.pystr "2024-05-01T12:00:00Z") = some (mkInstant 2024 5 1 12 0 0)
    ∧ parse_datetime (.pystr "2024-05-01T12:00:00-03:00") = some (mkInstant 2024 5 1 15 0 0)
    ∧ parse_datetime (.pystr "not-a-date") = none
    ∧ (∀ s : String,
        fromisoformat (String.mk (replaceZ (stripChars s.data))) = none →
        parse_datetime (.pystr s) = none)
    ∧ to_decimal .pynone = none
    ∧ to_decimal (.pystr "") = none
    ∧ (∀ s : String, parseDecParts s.data = none → to_decimal (.pystr s) = none)
    ∧ to_decimal (.pystr "12.34") = some ((1234 : ℚ) / 100)
    ∧ to_decimal (.pystr "abc") = none
    ∧ (∀ s : String, ∀ q : ℚ, to_decimal (.pystr s) = some q →
        ∃ m k, parseDecParts s.data = some (m, k) ∧ q = (m : ℚ) / (10 : ℚ) ^ k) := by
  refine ⟨by decide, by decide, by decide, ?_, rfl, rfl, ?_, ?_, by decide, ?_⟩
  · intro s h
    by_cases hs : s = ""
    · simp [parse_datetime, hs, pyTruthy]
    · by_cases hc : stripChars s.data = [] <;>
        simp [parse_datetime, pyTruthy, hs, hc, h]
  · intro s h
    by_cases hs : s = ""
    · simp [to_decimal, hs]
    · simp [to_decimal, hs, pyStr, parseDecCore, h]
  · have h : parseDecParts "12.34".data = some (1234, 2) := by decide
    simp [to_decimal, pyStr, parseDecCore, h]
    norm_num
  · intro s q h
    by_cases hs : s = ""
    · rw [hs] at h
      simp [to_decimal] at h
    · simp [to_decimal, hs, pyStr, parseDecCore] at h
      obtain ⟨m, k, hp, hv⟩ := h
      exact ⟨m, k, hp, hv.symm⟩

/-- C7 witness: the degradation clauses at concrete inputs via the theorem —
an invalid month, a comma decimal, and an exact-value numeric parse. -/
theorem C7_parsers_degrade_to_unknown_witness :
    parse_datetime (.pystr "2024-13-01T00:00:00Z") = none ∧
    to_decimal (.pystr "12,34") = none ∧
    (∃ m k, parseDecParts "7.5".data = some (m, k) ∧
      ((75 : ℚ) / 10) = (m : ℚ) / (10 : ℚ) ^ k) := by
  refine ⟨?_, ?_, ?_⟩
  · exact C7_parsers_degrade_to_unknown.2.2.2.1 "2024-13-01T00:00:00Z" (by decide)
  · exact C7_parsers_degrade_to_unknown.2.2.2.2.2.2.1 "12,34" (by decide)
  · refine C7_parsers_degrade_to_unknown.2.2.2.2.2.2.2.2.2 "7.5" ((75 : ℚ) / 10) ?_
    have h : parseDecParts "7.5".data = some (75, 1) := by decide
    simp [to_decimal, pyStr, parseDecCore, h]

/-! ### Helper lemmas on the upsert -/

theorem upsert_existing (store : Store) (now uid : Int) (pid : String)
    (pref : Option String) (status : SessionStatus) (mp det : Option String)
    (credits : Option Int) (amount : Option ℚ) (expAt : Option Int)
    (inst : PaymentSession) (hfind : findSession store pid = some inst) :
    (upsert_session store now uid pid pref status mp det credits amount expAt).1.sessions
        = replaceFirst store.sessions pid
            (mergeSession inst now uid pref status mp det credits amount expAt).fst
    ∧ (upsert_session store now uid pid pref status mp det credits amount expAt).1.nextId
        = store.nextId
    ∧ (upsert_session store now uid pid pref status mp det credits amount expAt).2.1
        = (mergeSession inst now uid pref status mp det credits amount expAt).fst
    ∧ (upsert_session store now uid pid pref status mp det credits amount expAt).2.2
        = (mergeSession inst now uid pref status mp det credits amount expAt).snd := by
  simp [upsert_session, hfind]

theorem upsert_missing (store : Store) (now uid : Int) (pid : String)
    (pref : Option String) (status : SessionStatus) (mp det : Option String)
    (credits : Option Int) (amount : Option ℚ) (expAt : Option Int)
    (hfind : findSession store pid = none) :
    (upsert_session store now uid pid pref status mp det credits amount expAt).1.sessions
        = store.sessions
            ++ [(upsert_session store now uid pid pref status mp det credits amount expAt).2.1]
    ∧ (upsert_session store now uid pid pref status mp det credits amount expAt).1.nextId
        = store.nextId + 1
    ∧ (upsert_session store now uid pid pref status mp det credits amount expAt).2.2 = false
    ∧ (upsert_session store now uid pid pref status mp det credits amount expAt).2.1.id
        = store.nextId
    ∧ (upsert_session store now uid pid pref status mp det credits amount expAt).2.1.payment_id
        = pid
    ∧ (upsert_session store now uid pid pref status mp det credits amount expAt).2.1.status
        = status
    ∧ (upsert_session store now uid pid pref status mp det credits amount expAt).2.1.created_at
        = now
    ∧ (upsert_session store now uid pid pref status mp det credits amount expAt).2.1.updated_at
        = now
    ∧ (upsert_session store now uid pid pref status mp det credits amount expAt).2.1.last_sync_at
        = some now := by
  simp [upsert_session, hfind]

theorem mergeSession_payment_id (inst : PaymentSession) (now uid : Int)
    (pref : Option String) (status : SessionStatus) (mp det : Option String)
    (credits : Option Int) (amount : Option ℚ) (expAt : Option Int) :
    (mergeSession inst now uid pref status mp det credits amount expAt).fst.payment_id
      = inst.payment_id := by
  simp [mergeSession, touchUpdatedAt]

theorem mergeSession_id (inst : PaymentSession) (now uid : Int)
    (pref : Option String) (status : SessionStatus) (mp det : Option String)
    (credits : Option Int) (amount : Option ℚ) (expAt : Option Int) :
    (mergeSession inst now uid pref status mp det credits amount expAt).fst.id
      = inst.id := by
  simp [mergeSession, touchUpdatedAt]

theorem findSession_payment_id (store : Store) (pid : String)
    (inst : PaymentSession) (hfind : findSession store pid = some inst) :
    inst.payment_id = pid := by
  have h := List.find?_some hfind
  simpa using h

theorem findSession_after_upsert_existing (store : Store) (now uid : Int)
    (pid : String) (pref : Option String) (status : SessionStatus)
    (mp det : Option String) (credits : Option Int) (amount : Option ℚ)
    (expAt : Option Int) (inst : PaymentSession)
    (hfind : findSession store pid = some inst) :
    findSession (upsert_session store now uid pid pref status mp det credits amount expAt).1 pid
      = some (upsert_session store now uid pid pref status mp det credits amount expAt).2.1 := by
  obtain ⟨h1, _, h3, _⟩ :=
    upsert_existing store now uid pid pref status mp det credits amount expAt inst hfind
  rw [h3]
  show ((upsert_session store now uid pid pref status mp det credits
    amount expAt).1.sessions.find? (fun s => s.payment_id == pid)) = _
  rw [h1]
  refine replaceFirst_find? _ _ _ ?_ ?_
  · rw [mergeSession_payment_id]
    exact findSession_payment_id store pid inst hfind
  · rw [show store.sessions.find? (fun s => s.payment_id == pid) = some inst from hfind]
    rfl

/-! ### Claims about the upsert -/

/-- C1: an upsert on a stored `completed` session that carries a mapped status
of `failed` or `expired` leaves the stored status `completed`, raises the
regression warning, and still updates the merge fields `detail` and
`last_sync_at`. -/
theorem C1_completed_never_regresses (store : Store) (now uid : Int)
    (pid : String) (pref : Option String) (status : SessionStatus)
    (mp det : Option String) (credits : Option Int) (amount : Option ℚ)
    (expAt : Option Int) (inst : PaymentSession)
    (hfind : findSession store pid = some inst)
    (hC : inst.status = SessionStatus.completed)
    (hS : status = SessionStatus.failed ∨ status = SessionStatus.expired) :
    (upsert_session store now uid pid pref status mp det credits amount expAt).2.1.status
        = SessionStatus.completed
    ∧ (upsert_session store now uid pid pref status mp det credits amount expAt).2.2 = true
    ∧ (upsert_session store now uid pid pref status mp det credits amount expAt).2.1.detail = det
    ∧ (upsert_session store now uid pid pref status mp det credits amount expAt).2.1.last_sync_at
        = some now
    ∧ findSession (upsert_session store now uid pid pref status mp det credits amount expAt).1 pid
        = some (upsert_session store now uid pid pref status mp det credits amount expAt).2.1 := by
  obtain ⟨h1, h2, h3, h4⟩ :=
    upsert_existing store now uid pid pref status mp det credits amount expAt inst hfind
  refine ⟨?_, ?_, ?_, ?_,
    findSession_after_upsert_existing store now uid pid pref status mp det
      credits amount expAt inst hfind⟩
  · rw [h3]
    simp [mergeSession, touchUpdatedAt, hC]
  · rw [h4]
    rcases hS with h | h <;> subst h <;> simp [mergeSession, hC]
  · rw [h3]
    simp [mergeSession, touchUpdatedAt]
  · rw [h3]
    simp [mergeSession, touchUpdatedAt]

/-- A concrete completed session used by the upsert witnesses. -/
def wRow : PaymentSession where
  id := 1
  user_id := 7
  payment_id := "p1"
  preference_id := none
  status := SessionStatus.completed
  mercadopago_status := some "approved"
  detail := none
  credits_amount := some 500
  amount := none
  expires_at := none
  created_at := 10
  updated_at := 10
  last_sync_at := some 10

/-- A one-row store holding `wRow`. -/
def wStore : Store where
  sessions := [wRow]
  nextId := 2

/-- C1 witness: `wStore`'s completed session receiving gateway status
`cancelled` (mapped `failed`) keeps `completed` and warns. -/
theorem C1_completed_never_regresses_witness :
    (upsert_session wStore 20 7 "p1" none SessionStatus.failed (some "cancelled")
        (some "by_user") none none none).2.1.status = SessionStatus.completed
    ∧ (upsert_session wStore 20 7 "p1" none SessionStatus.failed (some "cancelled")
        (some "by_user") none none none).2.2 = true := by
  have h := C1_completed_never_regresses wStore 20 7 "p1" none
    SessionStatus.failed (some "cancelled") (some "by_user") none none none
    wRow (by decide) (by decide) (Or.inl rfl)
  exact ⟨h.1, h.2.1⟩

/-- C10: once the stored status is `completed`, an upsert never changes the
status for any incoming mapped status (including `pending` and `approved`),
and the regression warning is logged exactly for the `failed`/`expired`
attempts. -/
theorem C10_completed_absorbing (store : Store) (now uid : Int)
    (pid : String) (pref : Option String) (status : SessionStatus)
    (mp det : Option String) (credits : Option Int) (amount : Option ℚ)
    (expAt : Option Int) (inst : PaymentSession)
    (hfind : findSession store pid = some inst)
    (hC : inst.status = SessionStatus.completed) :
    (upsert_session store now uid pid pref status mp det credits amount expAt).2.1.status
        = SessionStatus.completed
    ∧ ((upsert_session store now uid pid pref status mp det credits amount expAt).2.2 = true
        ↔ (status = SessionStatus.failed ∨ status = SessionStatus.expired))
    ∧ findSession (upsert_session store now uid pid pref status mp det credits amount expAt).1 pid
        = some (upsert_session store now uid pid pref status mp det credits amount expAt).2.1 := by
  obtain ⟨h1, h2, h3, h4⟩ :=
    upsert_existing store now uid pid pref status mp det credits amount expAt inst hfind
  refine ⟨?_, ?_,
    findSession_after_upsert_existing store now uid pid pref status mp det
      credits amount expAt inst hfind⟩
  · rw [h3]
    simp [mergeSession, touchUpdatedAt, hC]
  · rw [h4]
    cases status <;> simp [mergeSession, hC]

/-- C10 witness: `wStore`'s completed session receiving mapped status
`approved` keeps `completed` and logs no warning. -/
theorem C10_completed_absorbing_witness :
    (upsert_session wStore 20 7 "p1" none SessionStatus.approved (some "approved")
        (some "ok") none none none).2.1.status = SessionStatus.completed
    ∧ (upsert_session wStore 20 7 "p1" none SessionStatus.approved (some "approved")
        (some "ok") none none none).2.2 = false := by
  have h := C10_completed_absorbing wStore 20 7 "p1" none SessionStatus.approved
    (some "approved") (some "ok") none none none wRow (by decide) (by decide)
  refine ⟨h.1, ?_⟩
  cases hb : (upsert_session wStore 20 7 "p1" none SessionStatus.approved
      (some "approved") (some "ok") none none none).2.2
  · rfl
  · rcases h.2.1.mp hb with h' | h' <;> exact absurd h' (by decide)

/-- C4: on an existing row, `credits_amount`, `amount` and `expires_at` are
overwritten only when the new value is present, `preference_id` only when a
non-empty value is supplied and never erased, while `mercadopago_status` and
`detail` are always overwritten (and may be cleared). -/
theorem C4_fill_never_blank (store : Store) (now uid : Int)
    (pid : String) (pref : Option String) (status : SessionStatus)
    (mp det : Option String) (credits : Option Int) (amount : Option ℚ)
    (expAt : Option Int) (inst : PaymentSession)
    (hfind : findSession store pid = some inst) :
    (credits = none →
      (upsert_session store now uid pid pref status mp det credits amount expAt).2.1.credits_amount
        = inst.credits_amount)
    ∧ (∀ c, credits = some c →
      (upsert_session store now uid pid pref status mp det credits amount expAt).2.1.credits_amount
        = some c)
    ∧ (amount = none →
      (upsert_session store now uid pid pref status mp det credits amount expAt).2.1.amount
        = inst.amount)
    ∧ (∀ a, amount = some a →
      (upsert_session store now uid pid pref status mp det credits amount expAt).2.1.amount
        = some a)
    ∧ (expAt = none →
      (upsert_session store now uid pid pref status mp det credits amount expAt).2.1.expires_at
        = inst.expires_at)
    ∧ (∀ e, expAt = some e →
      (upsert_session store now uid pid pref status mp det credits amount expAt).2.1.expires_at
        = some e)
    ∧ (pref = none →
      (upsert_session store now uid pid pref status mp det credits amount expAt).2.1.preference_id
        = inst.preference_id)
    ∧ (pref = some "" →
      (upsert_session store now uid pid pref status mp det credits amount expAt).2.1.preference_id
        = inst.preference_id)
    ∧ (∀ p, pref = some p → p ≠ "" →
      (upsert_session store now uid pid pref status mp det credits amount expAt).2.1.preference_id
        = some p)
    ∧ (upsert_session store now uid pid pref status mp det credits amount expAt).2.1.mercadopago_status
        = mp
    ∧ (upsert_session store now uid pid pref status mp det credits amount expAt).2.1.detail
        = det := by
  obtain ⟨h1, h2, h3, h4⟩ :=
    upsert_existing store now uid pid pref status mp det credits amount expAt inst hfind
  rw [h3]
  refine ⟨?_, ?_, ?_, ?_, ?_, ?_, ?_, ?_, ?_, ?_, ?_⟩
  · intro h
    subst h
    simp [mergeSession, touchUpdatedAt]
  · intro c h
    subst h
    simp [mergeSession, touchUpdatedAt]
  · intro h
    subst h
    simp [mergeSession, touchUpdatedAt]
  · intro a h
    subst h
    simp [mergeSession, touchUpdatedAt]
  · intro h
    subst h
    simp [mergeSession, touchUpdatedAt]
  · intro e h
    subst h
    simp [mergeSession, touchUpdatedAt]
  · intro h
    subst h
    simp [mergeSession, touchUpdatedAt, optStrTruthy]
  · intro h
    subst h
    simp [mergeSession, touchUpdatedAt, optStrTruthy]
  · intro p h hp
    subst h
    simp [mergeSession, touchUpdatedAt, optStrTruthy, hp]
  · simp [mergeSession, touchUpdatedAt]
  · simp [mergeSession, touchUpdatedAt]

/-- C4 witness: on the stored row holding `credits_amount = 500`, an upsert
with no credits leaves 500 and an upsert carrying 750 updates to 750. -/
theorem C4_fill_never_blank_witness :
    (upsert_session wStore 20 7 "p1" none SessionStatus.pending (some "pending")
        none none none none).2.1.credits_amount = some 500
    ∧ (upsert_session wStore 20 7 "p1" none SessionStatus.pending (some "pending")
        none (some 750) none none).2.1.credits_amount = some 750 := by
  have h1 := (C4_fill_never_blank wStore 20 7 "p1" none SessionStatus.pending
    (some "pending") none none none none wRow (by decide)).1 rfl
  have h2 := (C4_fill_never_blank wStore 20 7 "p1" none SessionStatus.pending
    (some "pending") none (some 750) none none wRow (by decide)).2.1 750 rfl
  exact ⟨h1.trans rfl, h2⟩

/-- C9: `mark_completed` on an existing session forces `status = completed`
and `gatewayStatus = approved` and stamps `last_sync_at`, keeping the
surrogate id and the row count; on a missing session it is a silent no-op. -/
theorem C9_mark_completed_forces (store : Store) (now : Int) (pid : String)
    (det : Option String) :
    (findSession store pid = none → mark_completed store now pid det = store)
    ∧ (∀ inst, findSession store pid = some inst →
        ∃ inst', findSession (mark_completed store now pid det) pid = some inst'
          ∧ inst'.status = SessionStatus.completed
          ∧ inst'.mercadopago_status = some "approved"
          ∧ inst'.last_sync_at = some now
          ∧ inst'.id = inst.id
          ∧ (mark_completed store now pid det).sessions.length
              = store.sessions.length) := by
  constructor
  · intro h
    simp [mark_completed, h]
  · intro inst h
    refine ⟨touchUpdatedAt
      { inst with
        status := SessionStatus.completed
        mercadopago_status := some "approved"
        detail := if optStrTruthy det then det else inst.detail
        last_sync_at := some now } now, ?_, ?_, ?_, ?_, ?_, ?_⟩
    · show findSession (mark_completed store now pid det) pid = _
      simp only [mark_completed, h]
      refine replaceFirst_find? _ _ _ ?_ ?_
      · simpa [touchUpdatedAt] using findSession_payment_id store pid inst h
      · rw [show store.sessions.find? (fun s => s.payment_id == pid) = some inst from h]
        rfl
    · simp [touchUpdatedAt]
    · simp [touchUpdatedAt]
    · simp [touchUpdatedAt]
    · simp [touchUpdatedAt]
    · simp only [mark_completed, h]
      exact replaceFirst_length _ _ _

/-- C9 witness: the no-op on an empty store, and the forcing clause on
`wStore`'s row, via the theorem. -/
theorem C9_mark_completed_forces_witness :
    mark_completed { sessions := [], nextId := 1 } 30 "zz" none
        = { sessions := [], nextId := 1 }
    ∧ (∃ inst', findSession (mark_completed wStore 30 "p1" (some "settled")) "p1"
        = some inst'
        ∧ inst'.status = SessionStatus.completed
        ∧ inst'.mercadopago_status = some "approved"
        ∧ inst'.last_sync_at = some 30
        ∧ inst'.id = wRow.id
        ∧ (mark_completed wStore 30 "p1" (some "settled")).sessions.length
            = wStore.sessions.length) :=
  ⟨(C9_mark_completed_forces { sessions := [], nextId := 1 } 30 "zz" none).1 rfl,
   (C9_mark_completed_forces wStore 30 "p1" (some "settled")).2 wRow (by decide)⟩

/-- C8: `register_payment_attempt` returns `None` when the payload carries no
truthy `id`, and `sync_with_payment_info` returns `None` when no user resolves
from the explicit argument or `metadata["user_id"]`; in both cases the store
is returned unchanged (no row created or modified) and no error escapes. -/
theorem C8_precondition_failures (store : Store) (now uid : Int)
    (payment : PyVal) (pref : Option String) (pid : String)
    (user_id : Option Int) (payload : PyVal) :
    (pyTruthy (pyGet payment "id") = false →
      register_payment_attempt store now uid payment pref = (store, none))
    ∧ (pyTruthy (pyOr
        (match user_id with | some n => PyVal.pyint n | none => PyVal.pynone)
        (pyGet (pyOr (pyGet payload "metadata") (PyVal.pydict [])) "user_id"))
          = false →
      sync_with_payment_info store now pid user_id payload = (store, none)) := by
  constructor
  · intro h
    simp [register_payment_attempt, h]
  · intro h
    by_cases hp : pid = ""
    · simp [sync_with_payment_info, hp]
    · simp [sync_with_payment_info, hp, h]

/-- C8 witness: a payload with no `id` key, and a sync with neither an explicit
user nor metadata `user_id`, both leave `wStore` untouched. -/
theorem C8_precondition_failures_witness :
    register_payment_attempt wStore 40 7 (PyVal.pydict []) none = (wStore, none)
    ∧ sync_with_payment_info wStore 40 "p9" none
        (PyVal.pydict [("status", PyVal.pystr "approved")]) = (wStore, none) :=
  ⟨(C8_precondition_failures wStore 40 7 (PyVal.pydict []) none "p9" none
      (PyVal.pydict [("status", PyVal.pystr "approved")])).1 rfl,
   (C8_precondition_failures wStore 40 7 (PyVal.pydict []) none "p9" none
      (PyVal.pydict [("status", PyVal.pystr "approved")])).2 rfl⟩

theorem upsert_find_self (store : Store) (now uid : Int) (pid : String)
    (pref : Option String) (status : SessionStatus) (mp det : Option String)
    (credits : Option Int) (amount : Option ℚ) (expAt : Option Int) :
    findSession (upsert_session store now uid pid pref status mp det credits amount expAt).1 pid
      = some (upsert_session store now uid pid pref status mp det credits amount expAt).2.1 := by
  cases hf : findSession store pid with
  | some inst =>
    exact findSession_after_upsert_existing store now uid pid pref status mp
      det credits amount expAt inst hf
  | none =>
    obtain ⟨h1, _, _, _, hpid, _⟩ :=
      upsert_missing store now uid pid pref status mp det credits amount expAt hf
    show ((upsert_session store now uid pid pref status mp det credits
      amount expAt).1.sessions.find? (fun s => s.payment_id == pid)) = _
    rw [h1]
    exact find?_append_of_none _ _ hf (by simp [hpid])

theorem upsert_row_stamped (store : Store) (now uid : Int) (pid : String)
    (pref : Option String) (status : SessionStatus) (mp det : Option String)
    (credits : Option Int) (amount : Option ℚ) (expAt : Option Int) :
    (upsert_session store now uid pid pref status mp det credits amount expAt).2.1.updated_at = now
    ∧ (upsert_session store now uid pid pref status mp det credits amount expAt).2.1.last_sync_at
        = some now := by
  cases hf : findSession store pid with
  | some inst =>
    obtain ⟨_, _, h3, _⟩ :=
      upsert_existing store now uid pid pref status mp det credits amount expAt inst hf
    rw [h3]
    constructor <;> simp [mergeSession, touchUpdatedAt]
  | none =>
    obtain ⟨_, _, _, _, _, _, _, hu, hl⟩ :=
      upsert_missing store now uid pid pref status mp det credits amount expAt hf
    exact ⟨hu, hl⟩

theorem upsert_countP_one (store : Store) (now uid : Int) (pid : String)
    (pref : Option String) (status : SessionStatus) (mp det : Option String)
    (credits : Option Int) (amount : Option ℚ) (expAt : Option Int)
    (hWF : store.sessions.countP (fun s => s.payment_id == pid) ≤ 1) :
    (upsert_session store now uid pid pref status mp det credits amount expAt).1.sessions.countP
      (fun s => s.payment_id == pid) = 1 := by
  cases hf : findSession store pid with
  | some inst =>
    obtain ⟨h1, _, _, _⟩ :=
      upsert_existing store now uid pid pref status mp det credits amount expAt inst hf
    rw [h1, replaceFirst_countP _ _ _
      (by rw [mergeSession_payment_id]; exact findSession_payment_id store pid inst hf)]
    have hf' : store.sessions.find? (fun s => s.payment_id == pid) = some inst := hf
    have hmem : inst ∈ store.sessions := List.mem_of_find?_eq_some hf'
    have hpa := List.find?_some hf'
    have hpos : 0 < store.sessions.countP (fun s => s.payment_id == pid) := by
      rw [List.countP_pos_iff]
      exact ⟨inst, hmem, hpa⟩
    omega
  | none =>
    obtain ⟨h1, _, _, _, hpid, _⟩ :=
      upsert_missing store now uid pid pref status mp det credits amount expAt hf
    rw [h1, List.countP_append]
    have hz : store.sessions.countP (fun s => s.payment_id == pid) = 0 := by
      rw [List.countP_eq_zero]
      intro a ha
      have := List.find?_eq_none.mp hf a ha
      simpa using this
    simp [hz, hpid]

/-- C2: the upsert keyed on `payment_id` is idempotent — on a store satisfying
the `uq_payment_sessions_payment_id` uniqueness constraint, calling it twice
with identical arguments leaves exactly one row for that `payment_id`, the
second call updating in place (no row added), with the surrogate `id`
unchanged and `updated_at`/`last_sync_at` advancing to the second clock. -/
theorem C2_upsert_idempotent (store : Store) (now1 now2 uid : Int)
    (pid : String) (pref : Option String) (status : SessionStatus)
    (mp det : Option String) (credits : Option Int) (amount : Option ℚ)
    (expAt : Option Int)
    (hWF : store.sessions.countP (fun s => s.payment_id == pid) ≤ 1)
    (hle : now1 ≤ now2) :
    (upsert_session (upsert_session store now1 uid pid pref status mp det credits amount expAt).1
        now2 uid pid pref status mp det credits amount expAt).1.sessions.countP
      (fun s => s.payment_id == pid) = 1
    ∧ (upsert_session (upsert_session store now1 uid pid pref status mp det credits amount expAt).1
        now2 uid pid pref status mp det credits amount expAt).1.sessions.length
      = (upsert_session store now1 uid pid pref status mp det credits amount expAt).1.sessions.length
    ∧ (upsert_session (upsert_session store now1 uid pid pref status mp det credits amount expAt).1
        now2 uid pid pref status mp det credits amount expAt).2.1.id
      = (upsert_session store now1 uid pid pref status mp det credits amount expAt).2.1.id
    ∧ (upsert_session (upsert_session store now1 uid pid pref status mp det credits amount expAt).1
        now2 uid pid pref status mp det credits amount expAt).2.1.updated_at = now2
    ∧ (upsert_session (upsert_session store now1 uid pid pref status mp det credits amount expAt).1
        now2 uid pid pref status mp det credits amount expAt).2.1.last_sync_at = some now2
    ∧ (upsert_session store now1 uid pid pref status mp det credits amount expAt).2.1.updated_at
      ≤ (upsert_session (upsert_session store now1 uid pid pref status mp det credits amount expAt).1
        now2 uid pid pref status mp det credits amount expAt).2.1.updated_at := by
  have hfind1 := upsert_find_self store now1 uid pid pref status mp det credits amount expAt
  have hWF1 : (upsert_session store now1 uid pid pref status mp det credits
      amount expAt).1.sessions.countP (fun s => s.payment_id == pid) ≤ 1 :=
    le_of_eq (upsert_countP_one store now1 uid pid pref status mp det credits amount expAt hWF)
  obtain ⟨g1, g2, g3, g4⟩ := upsert_existing _ now2 uid pid pref status mp det
    credits amount expAt _ hfind1
  obtain ⟨hu2, hl2⟩ := upsert_row_stamped (upsert_session store now1 uid pid
    pref status mp det credits amount expAt).1 now2 uid pid pref status mp det
    credits amount expAt
  obtain ⟨hu1, _⟩ := upsert_row_stamped store now1 uid pid pref status mp det
    credits amount expAt
  refine ⟨?_, ?_, ?_, hu2, hl2, ?_⟩
  · exact upsert_countP_one _ now2 uid pid pref status mp det credits amount expAt hWF1
  · rw [g1]
    exact replaceFirst_length _ _ _
  · rw [g3, mergeSession_id]
  · rw [hu1, hu2]
    exact hle

/-- C2 witness: two identical upserts on `wStore` leave one `p1` row with
the original id and advanced stamps. -/
theorem C2_upsert_idempotent_witness :
    (upsert_session (upsert_session wStore 20 7 "p1" none SessionStatus.approved
        (some "approved") none none none none).1
        21 7 "p1" none SessionStatus.approved
        (some "approved") none none none none).1.sessions.countP
      (fun s => s.payment_id == "p1") = 1
    ∧ (upsert_session (upsert_session wStore 20 7 "p1" none SessionStatus.approved
        (some "approved") none none none none).1
        21 7 "p1" none SessionStatus.approved
        (some "approved") none none none none).2.1.id
      = (upsert_session wStore 20 7 "p1" none SessionStatus.approved
        (some "approved") none none none none).2.1.id
    ∧ (upsert_session (upsert_session wStore 20 7 "p1" none SessionStatus.approved
        (some "approved") none none none none).1
        21 7 "p1" none SessionStatus.approved
        (some "approved") none none none none).2.1.last_sync_at = some 21 := by
  have h := C2_upsert_idempotent wStore 20 21 7 "p1" none SessionStatus.approved
    (some "approved") none none none none (by decide) (by omega)
  exact ⟨h.1, h.2.2.1, h.2.2.2.2.1⟩

/-! ### Claims about the readers and the access resolver -/

/-- C6: `_has_successful_payment` is true exactly when some session of the
user is `completed` or `approved`, or some `purchase` credit-ledger entry of
the user has an absent reference or one matching the gateway naming
convention (`LIKE 'mp_%'`); with the session clause checked first, a user
with balance 0, no session, and an unreferenced `purchase` entry resolves to
`ready_for_platform` with access granted. -/
theorem C6_has_successful_payment_iff (store : Store)
    (ledger : List CreditTransaction) (uid : Int) :
    (has_successful_payment store ledger uid = true ↔
      (∃ s ∈ store.sessions, s.user_id = uid ∧
        (s.status = SessionStatus.completed ∨ s.status = SessionStatus.approved)) ∨
      (∃ t ∈ ledger, t.user_id = uid ∧ t.transaction_type = "purchase" ∧
        (t.reference_id = none ∨ ∃ r, t.reference_id = some r ∧ refLikeMp r = true)))
    ∧ (get_user_state { sessions := [], nextId := 1 }
        [{ user_id := uid, transaction_type := "purchase", reference_id := none }]
        uid 0).can_access = true
    ∧ (get_user_state { sessions := [], nextId := 1 }
        [{ user_id := uid, transaction_type := "purchase", reference_id := none }]
        uid 0).state = AccessState.ready_for_platform := by
  refine ⟨?_, ?_, ?_⟩
  · constructor
    · intro h
      simp only [has_successful_payment, Bool.or_eq_true, List.any_eq_true] at h
      rcases h with ⟨s, hs, hp⟩ | ⟨t, ht, hp⟩
      · simp only [Bool.and_eq_true, Bool.or_eq_true, beq_iff_eq] at hp
        exact Or.inl ⟨s, hs, hp.1, hp.2⟩
      · simp only [Bool.and_eq_true, Bool.or_eq_true, beq_iff_eq] at hp
        refine Or.inr ⟨t, ht, hp.1.1, hp.1.2, ?_⟩
        have href := hp.2
        rcases hb : t.reference_id with _ | r
        · exact Or.inl rfl
        · rw [hb] at href
          rcases href with h' | h'
          · simp at h'
          · exact Or.inr ⟨r, rfl, h'⟩
    · intro h
      simp only [has_successful_payment, Bool.or_eq_true, List.any_eq_true]
      rcases h with ⟨s, hs, hu, hst⟩ | ⟨t, ht, hu, hty, href⟩
      · refine Or.inl ⟨s, hs, ?_⟩
        simp only [Bool.and_eq_true, Bool.or_eq_true, beq_iff_eq]
        exact ⟨hu, hst⟩
      · refine Or.inr ⟨t, ht, ?_⟩
        simp only [Bool.and_eq_true, Bool.or_eq_true, beq_iff_eq]
        refine ⟨⟨hu, hty⟩, ?_⟩
        rcases href with h' | ⟨r, hr, hl⟩
        · exact Or.inl (by simp [h'])
        · exact Or.inr (by simp [hr, hl])
  · simp [get_user_state, fetch_latest_session, pickLatest, user_has_paid_access]
  · simp [get_user_state, fetch_latest_session, pickLatest, user_has_paid_access]

theorem upa_implies_hsp (store : Store) (ledger : List CreditTransaction)
    (uid : Int) (h : user_has_paid_access ledger uid = true) :
    has_successful_payment store ledger uid = true := by
  rw [user_has_paid_access] at h
  rw [has_successful_payment, h]
  simp

theorem latest_successful_hsp (store : Store) (ledger : List CreditTransaction)
    (uid : Int) (s : PaymentSession)
    (h : fetch_latest_session store uid = some s)
    (hc : s.status = SessionStatus.completed ∨ s.status = SessionStatus.approved) :
    has_successful_payment store ledger uid = true := by
  obtain ⟨hmem, huid⟩ := fetch_latest_mem store uid s h
  rw [has_successful_payment, Bool.or_eq_true, List.any_eq_true]
  refine Or.inl ⟨s, hmem, ?_⟩
  simp only [Bool.and_eq_true, Bool.or_eq_true, beq_iff_eq]
  exact ⟨huid, hc⟩

theorem get_user_state_can_access (store : Store)
    (ledger : List CreditTransaction) (uid balance : Int) :
    (get_user_state store ledger uid balance).can_access
      = (decide (balance > 0) || has_successful_payment store ledger uid) := by
  show (decide (balance > 0) ||
      (if balance ≤ 0 then
        (if user_has_paid_access ledger uid then user_has_paid_access ledger uid
          else has_successful_payment store ledger uid)
        else false)) = _
  by_cases hb : balance > 0
  · have hb' : ¬ balance ≤ 0 := by omega
    simp [hb, hb']
  · have hb' : balance ≤ 0 := by omega
    have hd : decide (balance > 0) = false := by simp [hb]
    rw [hd, if_pos hb']
    simp only [Bool.false_or]
    cases hu : user_has_paid_access ledger uid
    · simp
    · simp [upa_implies_hsp store ledger uid hu]

theorem get_user_state_state_eq (store : Store)
    (ledger : List CreditTransaction) (uid balance : Int) :
    (get_user_state store ledger uid balance).state
      = (if (get_user_state store ledger uid balance).can_access then
          AccessState.ready_for_platform
        else
          match fetch_latest_session store uid with
          | some s =>
            if s.status == SessionStatus.pending || s.status == SessionStatus.approved then
              AccessState.awaiting_payment
            else if s.status == SessionStatus.failed || s.status == SessionStatus.expired then
              AccessState.payment_failed
            else AccessState.needs_payment
          | none => AccessState.needs_payment) := by
  rfl

/-- C5: access is granted exactly when the balance is positive or the user has
successful payment history (the fallback being consulted only on non-positive
balance); granted access yields `ready_for_platform`, and otherwise the state
is `awaiting_payment` for a latest session in `pending`/`approved`,
`payment_failed` for `failed`/`expired`, and `needs_payment` when no session
exists; a `completed` latest session always grants access, so `needs_payment`
under denial happens only with no session. -/
theorem C5_access_decision (store : Store) (ledger : List CreditTransaction)
    (uid balance : Int) :
    (get_user_state store ledger uid balance).can_access
        = (decide (balance > 0) || has_successful_payment store ledger uid)
    ∧ ((get_user_state store ledger uid balance).can_access = true →
        (get_user_state store ledger uid balance).state
          = AccessState.ready_for_platform)
    ∧ ((get_user_state store ledger uid balance).can_access = false →
        fetch_latest_session store uid = none →
        (get_user_state store ledger uid balance).state
          = AccessState.needs_payment)
    ∧ (∀ s, (get_user_state store ledger uid balance).can_access = false →
        fetch_latest_session store uid = some s →
        ((s.status = SessionStatus.pending ∨ s.status = SessionStatus.approved) →
          (get_user_state store ledger uid balance).state
            = AccessState.awaiting_payment)
        ∧ ((s.status = SessionStatus.failed ∨ s.status = SessionStatus.expired) →
          (get_user_state store ledger uid balance).state
            = AccessState.payment_failed))
    ∧ (∀ s, fetch_latest_session store uid = some s →
        s.status = SessionStatus.completed →
        (get_user_state store ledger uid balance).can_access = true) := by
  refine ⟨get_user_state_can_access store ledger uid balance, ?_, ?_, ?_, ?_⟩
  · intro h
    rw [get_user_state_state_eq, h]
    simp
  · intro h hn
    rw [get_user_state_state_eq, h, hn]
    simp
  · intro s h hs
    rw [get_user_state_state_eq, h, hs]
    constructor
    · intro hst
      rcases hst with h' | h' <;> simp [h']
    · intro hst
      rcases hst with h' | h' <;> simp [h']
  · intro s h hc
    rw [get_user_state_can_access,
      latest_successful_hsp store ledger uid s h (Or.inl hc)]
    simp

/-- A concrete pending session used by the access-decision witness. -/
def wRowPending : PaymentSession where
  id := 2
  user_id := 7
  payment_id := "p2"
  preference_id := none
  status := SessionStatus.pending
  mercadopago_status := some "pending"
  detail := none
  credits_amount := none
  amount := none
  expires_at := none
  created_at := 11
  updated_at := 11
  last_sync_at := some 11

/-- A one-row store holding `wRowPending`. -/
def wStorePending : Store where
  sessions := [wRowPending]
  nextId := 3

/-- C5 witness: the spec's concrete scenarios — pending session with zero
balance awaits payment, no session needs payment, a positive balance is ready,
and a completed latest session grants access. -/
theorem C5_access_decision_witness :
    (get_user_state wStorePending [] 7 0).state = AccessState.awaiting_payment
    ∧ (get_user_state { sessions := [], nextId := 1 } [] 7 0).state
        = AccessState.needs_payment
    ∧ (get_user_state { sessions := [], nextId := 1 } [] 7 10).state
        = AccessState.ready_for_platform
    ∧ (get_user_state wStore [] 7 0).can_access = true := by
  refine ⟨?_, ?_, ?_, ?_⟩
  · exact ((C5_access_decision wStorePending [] 7 0).2.2.2.1 wRowPending
      (by decide) (by decide)).1 (Or.inl rfl)
  · exact (C5_access_decision { sessions := [], nextId := 1 } [] 7 0).2.2.1
      (by decide) (by decide)
  · exact (C5_access_decision { sessions := [], nextId := 1 } [] 7 10).2.1
      (by decide)
  · exact (C5_access_decision wStore [] 7 0).2.2.2.2 wRow (by decide) rfl
